import Mathlib

/-!
Verification development for the deepin-anything backend core
(`src/server/backend/anythingbackend.cpp`).

The C++ code is shallowly embedded:

* Qt strings become `List Char`; `QString::split` and `QString::toInt`
  are modelled by `qsplit` and `qtoInt` below.
* `AnythingBackend::writeMountInfo` becomes the pure function
  `writeMountInfo` over an environment record (`MountEnv`) that stands
  for the outcomes of the `uname`, file-open, read and write system
  calls it performs; the function additionally reports which external
  effects happened (`MountResult`).
* The plugin registry (`interfaceList`) and the operations
  `AnythingBackend::addPlugin` / `AnythingBackend::removePlugins`
  become state-passing functions over `BackendState` that also emit a
  trace of `Action`s, one per externally visible step of the C++ code,
  in the order the code performs them.
* `AnythingBackend::init_connection` / `monitorStart` become
  state-passing functions over `InitState`.
-/

namespace AnythingBackend

/-! ## Model of the QString operations used by the code -/

/-- Model of `QString::split(sep)` with Qt's default `KeepEmptyParts`
behaviour: splitting the empty string yields `[[]]`, a string without
the separator yields a one-element list. -/
def qsplit (sep : Char) : List Char → List (List Char)
  | [] => [[]]
  | c :: cs =>
    if c = sep then
      [] :: qsplit sep cs
    else
      match qsplit sep cs with
      | [] => [[c]]
      | p :: ps => (c :: p) :: ps

/-- Digit-string parser: `some n` when the list is a nonempty sequence
of decimal digits, `none` otherwise. -/
def parseDigits : List Char → Option Nat
  | [] => none
  | [c] => if c.isDigit then some (c.toNat - '0'.toNat) else none
  | c :: cs =>
    if c.isDigit then
      match parseDigits cs with
      | some n => some ((c.toNat - '0'.toNat) * 10 ^ cs.length + n)
      | none => none
    else none

/-- The signed-decimal-integer parser underlying `QString::toInt`
(base 10): an optional sign followed by at least one digit, subject to
the C++ `int` range. -/
def parseQInt : List Char → Option Int
  | '-' :: cs =>
    match parseDigits cs with
    | some n => if (n : Int) ≤ 2147483648 then some (-(n : Int)) else none
    | none => none
  | '+' :: cs =>
    match parseDigits cs with
    | some n => if (n : Int) ≤ 2147483647 then some (n : Int) else none
    | none => none
  | cs =>
    match parseDigits cs with
    | some n => if (n : Int) ≤ 2147483647 then some (n : Int) else none
    | none => none

/-- Whether `QString::toInt` succeeds on the string. -/
def isDecimalInt (s : List Char) : Bool :=
  (parseQInt s).isSome

/-- Model of `QString::toInt()`: the parsed value on success, and the
documented failure value `0` otherwise. -/
def qtoInt (s : List Char) : Int :=
  match parseQInt s with
  | some n => n
  | none => 0

example : qsplit '.' "5.9.0".toList = [['5'], ['9'], ['0']] := by decide
example : qsplit '.' "abc".toList = [['a', 'b', 'c']] := by decide
example : qsplit '.' "".toList = [[]] := by decide
example : qtoInt "10".toList = 10 := by decide
example : qtoInt "a".toList = 0 := by decide

/-! ## MountInfoRelay: `AnythingBackend::writeMountInfo` -/

/-- The return codes of `writeMountInfo` (enum `WriteMountInfoError`). -/
inductive WriteMountInfoError
  | Success
  | UnameFail
  | UnrecognizedVersion
  | OpenSrcFileFail
  | OpenDstFileFail
  | WriteDstFileFail
deriving DecidableEq, Repr

/-- Environment of `writeMountInfo`: the outcomes of the system calls it
makes. `unameRelease` is the kernel release string (`none` when `uname`
fails); `mountinfo` is the byte content of `/proc/self/mountinfo`
(`none` when it cannot be opened for reading); `dstOpenOk` is whether
the pre-existing `/dev/driver_set_info` opens for writing;
`dstWriteResult d` is the byte count `QFile::write` reports when asked
to write `d`. -/
structure MountEnv where
  unameRelease : Option (List Char)
  mountinfo : Option (List Nat)
  dstOpenOk : Bool
  dstWriteResult : List Nat → Int

/-- Result of `writeMountInfo`: the returned code, whether the mount
table was opened for reading, and the data passed to the relay-channel
write call (`none` when no write was attempted). -/
structure MountResult where
  ret : WriteMountInfoError
  readSrc : Bool
  wrote : Option (List Nat)
deriving DecidableEq, Repr

/-- Shallow embedding of `AnythingBackend::writeMountInfo`
(anythingbackend.cpp lines 118-164), step for step:
`uname` check, `split(".")` with the `size() < 3` check, `toInt` on the
first two components, the version gate `ver_x >= 6 || (5 == ver_x &&
ver_y >= 10)`, then read `/proc/self/mountinfo`, open
`/dev/driver_set_info` and compare the written byte count with the
snapshot size. -/
def writeMountInfo (env : MountEnv) : MountResult :=
  match env.unameRelease with
  | none => ⟨WriteMountInfoError.UnameFail, false, none⟩
  | some release =>
    let ver_list := qsplit '.' release
    if ver_list.length < 3 then
      ⟨WriteMountInfoError.UnrecognizedVersion, false, none⟩
    else
      let ver_x := qtoInt (ver_list.getD 0 [])
      let ver_y := qtoInt (ver_list.getD 1 [])
      if ver_x ≥ 6 ∨ (5 = ver_x ∧ ver_y ≥ 10) then
        match env.mountinfo with
        | none => ⟨WriteMountInfoError.OpenSrcFileFail, true, none⟩
        | some mount_info =>
          if ¬ env.dstOpenOk then
            ⟨WriteMountInfoError.OpenDstFileFail, true, none⟩
          else if env.dstWriteResult mount_info ≠ (mount_info.length : Int) then
            ⟨WriteMountInfoError.WriteDstFileFail, true, some mount_info⟩
          else
            ⟨WriteMountInfoError.Success, true, some mount_info⟩
      else
        ⟨WriteMountInfoError.Success, false, none⟩

/-- A relay channel that accepts every write in full; used to state the
"writable relay channel" scenarios. -/
def fullWrite (d : List Nat) : Int := (d.length : Int)

example :
    writeMountInfo ⟨some "5.9.0".toList, some [1, 2], true, fullWrite⟩ =
      ⟨WriteMountInfoError.Success, false, none⟩ := by decide
example :
    writeMountInfo ⟨some "5.10.3".toList, some [1, 2], true, fullWrite⟩ =
      ⟨WriteMountInfoError.Success, true, some [1, 2]⟩ := by decide
example :
    writeMountInfo ⟨some "abc".toList, some [1], true, fullWrite⟩ =
      ⟨WriteMountInfoError.UnrecognizedVersion, false, none⟩ := by decide
example :
    writeMountInfo ⟨some "a.b.c".toList, some [1], true, fullWrite⟩ =
      ⟨WriteMountInfoError.Success, false, none⟩ := by decide

/-! ## ObserverRegistry: `interfaceList`, `addPlugin`, `removePlugins`

An observer handle (`DASInterface*`) is modelled by the `Nat` identity
of the object; `addPlugin` allocates handles from a counter
(`nextHandle`), so distinct constructions yield distinct handles, as
distinct `DASFactory::create` results are distinct objects.

The externally visible steps of the C++ code are emitted as a trace of
`Action`s in exactly the order the code performs them. -/

/-- One externally visible step of `addPlugin` / `removePlugins`, tagged
with the entry's key and handle. -/
inductive Action
  | createInterface (key : String) (handle : Nat)
  | warnNullInterface (key : String)
  | threadStart (key : String) (handle : Nat)
  | connectSignals (key : String) (handle : Nat)
  | quitThread (key : String) (handle : Nat)
  | waitThread (key : String) (handle : Nat) (ok : Bool)
  | warnWaitFail (key : String) (handle : Nat)
  | removeEntry (key : String) (handle : Nat)
  | disconnectSignals (key : String) (handle : Nat)
  | deleteLater (key : String) (handle : Nat)
deriving DecidableEq, Repr

/-- State of the registry: the global `interfaceList` of
(key, interface) pairs in insertion order, plus the handle allocator. -/
structure BackendState where
  interfaceList : List (String × Nat)
  nextHandle : Nat
deriving DecidableEq, Repr

/-- The empty registry at process start. -/
def initBackend : BackendState := ⟨[], 0⟩

/-- Shallow embedding of `AnythingBackend::addPlugin`
(anythingbackend.cpp lines 62-81). `create k` tells whether
`DASFactory::create(k)` returns a non-null interface; on success a
fresh interface object is constructed, its thread started, the pair
appended to `interfaceList` and the three event signals connected; on
failure a warning is logged and nothing changes. -/
def addPlugin (create : String → Bool) (key : String) (s : BackendState) :
    BackendState × List Action :=
  if create key then
    (⟨s.interfaceList ++ [(key, s.nextHandle)], s.nextHandle + 1⟩,
      [Action.createInterface key s.nextHandle,
       Action.threadStart key s.nextHandle,
       Action.connectSignals key s.nextHandle])
  else
    (s, [Action.warnNullInterface key])

/-- Shallow embedding of the loop body of
`AnythingBackend::removePlugins` (anythingbackend.cpp lines 85-104),
walking `interfaceList` left to right exactly as the indexed loop with
`removeAt(i); --i` does. `w k h` tells whether `t->wait()` on that
entry's thread returns true. Per matching entry the code does:
`t->quit()`, `t->wait()`, and on success `interfaceList.removeAt(i)`,
`server->disconnect(value.second)`, `value.second->deleteLater()`; on
wait failure it logs a warning and leaves the entry. -/
def removePluginsGo (keys : List String) (w : String → Nat → Bool) :
    List (String × Nat) → List (String × Nat) × List Action
  | [] => ([], [])
  | e :: rest =>
    if keys.contains e.1 then
      if w e.1 e.2 then
        let r := removePluginsGo keys w rest
        (r.1,
          Action.quitThread e.1 e.2 :: Action.waitThread e.1 e.2 true ::
          Action.removeEntry e.1 e.2 :: Action.disconnectSignals e.1 e.2 ::
          Action.deleteLater e.1 e.2 :: r.2)
      else
        let r := removePluginsGo keys w rest
        (e :: r.1,
          Action.quitThread e.1 e.2 :: Action.waitThread e.1 e.2 false ::
          Action.warnWaitFail e.1 e.2 :: r.2)
    else
      let r := removePluginsGo keys w rest
      (e :: r.1, r.2)

/-- `AnythingBackend::removePlugins` on the registry state. -/
def removePlugins (keys : List String) (w : String → Nat → Bool)
    (s : BackendState) : BackendState × List Action :=
  let r := removePluginsGo keys w s.interfaceList
  (⟨r.1, s.nextHandle⟩, r.2)

/-- `addPlugin` folded over a list of keys, as the loops in
`monitorStart` and in the `pluginModified` handler do. -/
def addPlugins (create : String → Bool) (ks : List String)
    (s : BackendState) : BackendState × List Action :=
  match ks with
  | [] => (s, [])
  | k :: rest =>
    let r := addPlugin create k s
    let r' := addPlugins create rest r.1
    (r'.1, r.2 ++ r'.2)

/-- Shallow embedding of the `pluginModified` handler registered in
`AnythingBackend::monitorStart` (anythingbackend.cpp lines 205-214):
`removePlugins(keys, server)`, then `reloadLoader`; `reload` is `none`
when the reload fails and `some newKeys` when it succeeds with
`getKeysByLoader` returning `newKeys`, in which case `addPlugin` runs
for each new key. -/
def pluginModified (create : String → Bool) (w : String → Nat → Bool)
    (keys : List String) (reload : Option (List String))
    (s : BackendState) : BackendState × List Action :=
  let r := removePlugins keys w s
  match reload with
  | none => r
  | some newKeys =>
    let r' := addPlugins create newKeys r.1
    (r'.1, r.2 ++ r'.2)

/-- A lifecycle operation driven by the loader notifications:
`addPlugin` for one key, or `removePlugins` for a set of keys. -/
inductive Op
  | add (key : String)
  | remove (keys : List String)
deriving DecidableEq, Repr

/-- The keys of the add operations of a sequence. -/
def addKeys : List Op → List String
  | [] => []
  | Op.add k :: rest => k :: addKeys rest
  | Op.remove _ :: rest => addKeys rest

/-- Run a sequence of add/remove operations, accumulating the trace. -/
def exec (create : String → Bool) (w : String → Nat → Bool) :
    List Op → BackendState → BackendState × List Action
  | [], s => (s, [])
  | Op.add k :: rest, s =>
    let r := addPlugin create k s
    let r' := exec create w rest r.1
    (r'.1, r.2 ++ r'.2)
  | Op.remove ks :: rest, s =>
    let r := removePlugins ks w s
    let r' := exec create w rest r.1
    (r'.1, r.2 ++ r'.2)

/-- The keys registered in a registry state, in list order. -/
def keysOf (l : List (String × Nat)) : List String :=
  l.map Prod.fst

/-- Keys whose `Action.createInterface` step appears in a trace: the
keys for which an entry was actually constructed and inserted. -/
def addedOf : List Action → List String
  | [] => []
  | Action.createInterface k _ :: rest => k :: addedOf rest
  | _ :: rest => addedOf rest

/-- Keys whose `Action.removeEntry` step appears in a trace: the keys
whose entry was successfully removed from the registry. -/
def removedOf : List Action → List String
  | [] => []
  | Action.removeEntry k _ :: rest => k :: removedOf rest
  | _ :: rest => removedOf rest

example :
    (exec (fun _ => true) (fun _ _ => true)
      [Op.add "a", Op.add "b", Op.remove ["a"]] initBackend).1 =
      ⟨[("b", 1)], 2⟩ := by decide
example :
    (exec (fun _ => true) (fun _ _ => false)
      [Op.add "a", Op.remove ["a"]] initBackend).1 =
      ⟨[("a", 0)], 1⟩ := by decide
example :
    (removePlugins ["k"] (fun _ _ => true) ⟨[("k", 0)], 1⟩).2 =
      [Action.quitThread "k" 0, Action.waitThread "k" 0 true,
       Action.removeEntry "k" 0, Action.disconnectSignals "k" 0,
       Action.deleteLater "k" 0] := by decide

/-! ## `init_connection`, `monitorStart` -/

/-- Whole-backend state for `init_connection` / `monitorStart`: the
`hasconnected` guard flag, the `server` pointer (existence and running
state), the plugin registry, the data written to the relay channel so
far, and counters of how often `backendRun` and `monitorStart` have
been invoked. -/
structure InitState where
  hasconnected : Bool
  serverExists : Bool
  serverRunning : Bool
  backend : BackendState
  relayWrites : List (List Nat)
  backendRunCount : Nat
  monitorStartCount : Nat
deriving DecidableEq, Repr

/-- Shallow embedding of `AnythingBackend::monitorStart`
(anythingbackend.cpp lines 178-223): run `writeMountInfo` (recording
any relay-channel write), create the `server` if absent, and if the
server is not running, add a plugin for every `DASFactory::keys()` key
(`factoryKeys`), register the loader handlers, and start the server.
Always returns 0. -/
def monitorStart (env : MountEnv) (factoryKeys : List String)
    (create : String → Bool) (s : InitState) : Int × InitState :=
  let mres := writeMountInfo env
  let s1 : InitState :=
    { s with
      monitorStartCount := s.monitorStartCount + 1,
      relayWrites :=
        s.relayWrites ++ (match mres.wrote with | some d => [d] | none => []) }
  let s2 : InitState :=
    if s1.serverExists then s1 else { s1 with serverExists := true }
  if s2.serverExists ∧ ¬ s2.serverRunning then
    let r := addPlugins create factoryKeys s2.backend
    (0, { s2 with backend := r.1, serverRunning := true })
  else
    (0, s2)

/-- Shallow embedding of `AnythingBackend::init_connection`
(anythingbackend.cpp lines 166-176). `brRet` is the value this call's
`backendRun()` would return (its effects are logging and D-Bus
registration, external to this core). If `hasconnected` is already
set, return 0 at once; otherwise run `backendRun`, and when it returns
0 run `monitorStart`, set `hasconnected` and return 0; when it fails,
return -1. -/
def init_connection (brRet : Int) (env : MountEnv)
    (factoryKeys : List String) (create : String → Bool)
    (s : InitState) : Int × InitState :=
  if s.hasconnected then
    (0, s)
  else
    let s1 : InitState := { s with backendRunCount := s.backendRunCount + 1 }
    if brRet = 0 then
      let r := monitorStart env factoryKeys create s1
      (0, { r.2 with hasconnected := true })
    else
      (-1, s1)

/-! ## The result taxonomy C8 states, and its repair

`writeMountInfoC8Claimed` transcribes claim C8's ordered condition
list word for word; `writeMountInfoC8Amended` is the same list with
the one missing condition — the kernel-version gate — inserted, after
which it coincides with the code. -/

/-- The return value C8 assigns to `writeMountInfo`: the six results,
each under its stated condition, checked in the claimed order (uname,
version format, source readability, destination writability, short
write, otherwise success) — with no kernel-version gate. Written from
the claim's words, for comparison with `writeMountInfo`. -/
def writeMountInfoC8Claimed (env : MountEnv) : WriteMountInfoError :=
  match env.unameRelease with
  | none => WriteMountInfoError.UnameFail
  | some release =>
    if (qsplit '.' release).length < 3 then
      WriteMountInfoError.UnrecognizedVersion
    else
      match env.mountinfo with
      | none => WriteMountInfoError.OpenSrcFileFail
      | some data =>
        if ¬ env.dstOpenOk then
          WriteMountInfoError.OpenDstFileFail
        else if env.dstWriteResult data ≠ (data.length : Int) then
          WriteMountInfoError.WriteDstFileFail
        else
          WriteMountInfoError.Success

/-- C8's ordered condition list amended with the kernel-version gate:
when the release parses but the version is below 5.10, the result is
`Success` with no read or write attempted; the source / destination /
short-write conditions apply only above the gate. -/
def writeMountInfoC8Amended (env : MountEnv) : WriteMountInfoError :=
  match env.unameRelease with
  | none => WriteMountInfoError.UnameFail
  | some release =>
    let ver_list := qsplit '.' release
    if ver_list.length < 3 then
      WriteMountInfoError.UnrecognizedVersion
    else if ¬ (qtoInt (ver_list.getD 0 []) > 5 ∨
        (qtoInt (ver_list.getD 0 []) = 5 ∧ qtoInt (ver_list.getD 1 []) ≥ 10)) then
      WriteMountInfoError.Success
    else
      match env.mountinfo with
      | none => WriteMountInfoError.OpenSrcFileFail
      | some data =>
        if ¬ env.dstOpenOk then
          WriteMountInfoError.OpenDstFileFail
        else if env.dstWriteResult data ≠ (data.length : Int) then
          WriteMountInfoError.WriteDstFileFail
        else
          WriteMountInfoError.Success

/-! ## Registry lemmas -/

/-- The entry a removal-loop action is about, when it is about one. -/
def entryOf : Action → Option (String × Nat)
  | Action.createInterface k h => some (k, h)
  | Action.warnNullInterface _ => none
  | Action.threadStart k h => some (k, h)
  | Action.connectSignals k h => some (k, h)
  | Action.quitThread k h => some (k, h)
  | Action.waitThread k h _ => some (k, h)
  | Action.warnWaitFail k h => some (k, h)
  | Action.removeEntry k h => some (k, h)
  | Action.disconnectSignals k h => some (k, h)
  | Action.deleteLater k h => some (k, h)

theorem addedOf_append (t1 t2 : List Action) :
    addedOf (t1 ++ t2) = addedOf t1 ++ addedOf t2 := by
  induction t1 with
  | nil => rfl
  | cons a t ih => cases a <;> simp [addedOf, ih]

theorem removedOf_append (t1 t2 : List Action) :
    removedOf (t1 ++ t2) = removedOf t1 ++ removedOf t2 := by
  induction t1 with
  | nil => rfl
  | cons a t ih => cases a <;> simp [removedOf, ih]

/-- The surviving entries of the removal loop are exactly those whose
key is not targeted or whose thread failed to quit. -/
theorem removePluginsGo_fst (ks : List String) (w : String → Nat → Bool)
    (l : List (String × Nat)) :
    (removePluginsGo ks w l).1 =
      l.filter (fun e => !(ks.contains e.1 && w e.1 e.2)) := by
  induction l with
  | nil => rfl
  | cons e rest ih =>
    by_cases h1 : e.1 ∈ ks
    · by_cases h2 : w e.1 e.2 = true
      · simp [removePluginsGo, h1, h2, ih]
      · simp [removePluginsGo, h1, h2, ih]
    · simp [removePluginsGo, h1, ih]

/-- The removal loop records a `removeEntry` step exactly for the
entries it removed. -/
theorem removedOf_removePluginsGo (ks : List String)
    (w : String → Nat → Bool) (l : List (String × Nat)) :
    removedOf (removePluginsGo ks w l).2 =
      keysOf (l.filter (fun e => ks.contains e.1 && w e.1 e.2)) := by
  induction l with
  | nil => rfl
  | cons e rest ih =>
    by_cases h1 : e.1 ∈ ks
    · by_cases h2 : w e.1 e.2 = true
      · simp [removePluginsGo, h1, h2, ih, removedOf, keysOf]
      · simp [removePluginsGo, h1, h2, ih, removedOf, keysOf]
    · simp [removePluginsGo, h1, ih, removedOf, keysOf]

/-- The removal loop constructs no interface. -/
theorem addedOf_removePluginsGo (ks : List String)
    (w : String → Nat → Bool) (l : List (String × Nat)) :
    addedOf (removePluginsGo ks w l).2 = [] := by
  induction l with
  | nil => rfl
  | cons e rest ih =>
    by_cases h1 : e.1 ∈ ks
    · by_cases h2 : w e.1 e.2 = true
      · simp [removePluginsGo, h1, h2, ih, addedOf]
      · simp [removePluginsGo, h1, h2, ih, addedOf]
    · simp [removePluginsGo, h1, ih, addedOf]

theorem keysOf_append (l1 l2 : List (String × Nat)) :
    keysOf (l1 ++ l2) = keysOf l1 ++ keysOf l2 := by
  simp [keysOf]

theorem mem_keysOf {l : List (String × Nat)} {k : String} :
    k ∈ keysOf l ↔ ∃ h, (k, h) ∈ l := by
  constructor
  · intro hk
    rcases List.mem_map.1 hk with ⟨e, he, hek⟩
    exact ⟨e.2, by simpa [← hek] using he⟩
  · rintro ⟨h, hh⟩
    exact List.mem_map.2 ⟨(k, h), hh, rfl⟩

/-- In a registry whose key list has no duplicates, a key determines
its handle. -/
theorem handle_unique {l : List (String × Nat)}
    (hnd : (keysOf l).Nodup) {k : String} {a b : Nat}
    (ha : (k, a) ∈ l) (hb : (k, b) ∈ l) : a = b := by
  have hmap : (l.map Prod.fst).Nodup := hnd
  have := List.inj_on_of_nodup_map hmap ha hb rfl
  exact congrArg Prod.snd this

/-- On a duplicate-free registry, a key survives the removal loop iff
it was present and was not successfully removed (no `removeEntry` step
for it in the trace). -/
theorem removePluginsGo_key_iff (ks : List String)
    (w : String → Nat → Bool) (l : List (String × Nat))
    (hnd : (keysOf l).Nodup) (k : String) :
    k ∈ keysOf (removePluginsGo ks w l).1 ↔
      (k ∈ keysOf l ∧ k ∉ removedOf (removePluginsGo ks w l).2) := by
  rw [removePluginsGo_fst, removedOf_removePluginsGo]
  constructor
  · intro hk
    rcases mem_keysOf.1 hk with ⟨h, hh⟩
    have hmem := List.mem_filter.1 hh
    refine ⟨mem_keysOf.2 ⟨h, hmem.1⟩, ?_⟩
    intro hr
    rcases mem_keysOf.1 hr with ⟨h', hh'⟩
    have hmem' := List.mem_filter.1 hh'
    have : h = h' := handle_unique hnd hmem.1 hmem'.1
    subst this
    rw [hmem'.2] at hmem
    simp at hmem
  · rintro ⟨hk, hr⟩
    rcases mem_keysOf.1 hk with ⟨h, hh⟩
    refine mem_keysOf.2 ⟨h, List.mem_filter.2 ⟨hh, ?_⟩⟩
    by_contra hcond
    simp only [Bool.not_eq_true, Bool.not_not] at hcond
    exact hr (mem_keysOf.2 ⟨h, List.mem_filter.2 ⟨hh, by
      simpa using hcond⟩⟩)

/-- Invariant tying a registry state to the keys added and removed so
far: the key list is duplicate-free, a key is live iff it was added
and not removed, and only added keys have been removed. -/
def RegistryInv (s : BackendState) (added removed : List String) : Prop :=
  (keysOf s.interfaceList).Nodup
  ∧ (∀ k, k ∈ keysOf s.interfaceList ↔ (k ∈ added ∧ k ∉ removed))
  ∧ (∀ k ∈ removed, k ∈ added)

theorem registryInv_init : RegistryInv initBackend [] [] := by
  refine ⟨List.nodup_nil, fun k => ?_, fun k hk => by cases hk⟩
  simp [initBackend, keysOf]

/-- One removal step preserves the invariant, charging the removed
keys of its trace to the removed set. -/
theorem registryInv_remove (ks : List String) (w : String → Nat → Bool)
    (s : BackendState) (added removed : List String)
    (hinv : RegistryInv s added removed) :
    RegistryInv (removePlugins ks w s).1 added
      (removed ++ removedOf (removePlugins ks w s).2) := by
  obtain ⟨hnd, hiff, hsub⟩ := hinv
  have hstep : ∀ k, k ∈ removedOf (removePlugins ks w s).2 →
      k ∈ keysOf s.interfaceList := by
    intro k hk
    simp only [removePlugins] at hk
    rw [removedOf_removePluginsGo] at hk
    rcases mem_keysOf.1 hk with ⟨h, hh⟩
    exact mem_keysOf.2 ⟨h, (List.mem_filter.1 hh).1⟩
  refine ⟨?_, fun k => ?_, fun k hk => ?_⟩
  · simp only [removePlugins, removePluginsGo_fst]
    exact ((List.filter_sublist _).map Prod.fst).nodup hnd
  · simp only [removePlugins]
    rw [removePluginsGo_key_iff ks w s.interfaceList hnd k]
    rw [hiff k]
    simp only [List.mem_append]
    tauto
  · rcases List.mem_append.1 hk with hk | hk
    · exact hsub k hk
    · exact ((hiff k).1 (hstep k hk)).1

/-- One add step preserves the invariant: on construction success the
key is charged to the added set, on failure nothing changes. -/
theorem registryInv_add (create : String → Bool) (k : String)
    (s : BackendState) (added removed : List String)
    (hinv : RegistryInv s added removed) (hfresh : k ∉ added) :
    RegistryInv (addPlugin create k s).1
      (added ++ addedOf (addPlugin create k s).2) removed := by
  obtain ⟨hnd, hiff, hsub⟩ := hinv
  by_cases hc : create k = true
  · have hknot : k ∉ keysOf s.interfaceList := fun hk => hfresh ((hiff k).1 hk).1
    have hkrem : k ∉ removed := fun hk => hfresh (hsub k hk)
    have hlist : (addPlugin create k s).1.interfaceList
        = s.interfaceList ++ [(k, s.nextHandle)] := by
      simp [addPlugin, hc]
    have htr : addedOf (addPlugin create k s).2 = [k] := by
      simp [addPlugin, hc, addedOf]
    have hkeys : keysOf (s.interfaceList ++ [(k, s.nextHandle)])
        = keysOf s.interfaceList ++ [k] := by
      rw [keysOf_append]; rfl
    unfold RegistryInv
    rw [hlist, htr]
    refine ⟨?_, fun k' => ?_, fun k' hk' => List.mem_append.2 (Or.inl (hsub k' hk'))⟩
    · rw [hkeys]
      refine hnd.append (List.nodup_singleton k) ?_
      intro a ha hb
      rw [List.mem_singleton] at hb
      subst hb
      exact hknot ha
    · rw [hkeys]
      simp only [List.mem_append, List.mem_singleton]
      by_cases hek : k' = k
      · subst hek
        simp [hkrem]
      · simp [hek, hiff k']
  · have hlist : (addPlugin create k s).1 = s := by
      simp [addPlugin, hc]
    have htr : addedOf (addPlugin create k s).2 = [] := by
      simp [addPlugin, hc, addedOf]
    rw [hlist, htr]
    simpa using ⟨hnd, hiff, hsub⟩

theorem addedOf_addPlugin (create : String → Bool) (k : String)
    (s : BackendState) :
    addedOf (addPlugin create k s).2 = if create k then [k] else [] := by
  by_cases hc : create k = true
  · simp [addPlugin, hc, addedOf]
  · simp [addPlugin, hc, addedOf]

theorem removedOf_addPlugin (create : String → Bool) (k : String)
    (s : BackendState) :
    removedOf (addPlugin create k s).2 = [] := by
  by_cases hc : create k = true
  · simp [addPlugin, hc, removedOf]
  · simp [addPlugin, hc, removedOf]

/-- The registry invariant holds along every add/remove sequence whose
add keys are pairwise distinct and fresh. -/
theorem exec_registryInv (create : String → Bool) (w : String → Nat → Bool)
    (ops : List Op) :
    ∀ (s : BackendState) (added removed : List String),
      RegistryInv s added removed →
      (addKeys ops).Nodup →
      (∀ k ∈ addKeys ops, k ∉ added) →
      RegistryInv (exec create w ops s).1
        (added ++ addedOf (exec create w ops s).2)
        (removed ++ removedOf (exec create w ops s).2) := by
  induction ops with
  | nil =>
    intro s added removed hinv _ _
    simpa [exec, addedOf, removedOf] using hinv
  | cons op rest ih =>
    intro s added removed hinv hnd hfr
    cases op with
    | add k =>
      have hk : k ∉ added := hfr k (by simp [addKeys])
      have h1 := registryInv_add create k s added removed hinv hk
      have hnds : k ∉ addKeys rest ∧ (addKeys rest).Nodup := by
        simpa [addKeys, List.nodup_cons] using hnd
      have hfr' : ∀ k' ∈ addKeys rest,
          k' ∉ added ++ addedOf (addPlugin create k s).2 := by
        intro k' hk' hmem
        rcases List.mem_append.1 hmem with h | h
        · exact hfr k' (by simp [addKeys, hk']) h
        · rw [addedOf_addPlugin] at h
          by_cases hc : create k = true
          · rw [if_pos hc] at h
            rw [List.mem_singleton] at h
            subst h
            exact hnds.1 hk'
          · rw [if_neg hc] at h
            cases h
      have h2 := ih (addPlugin create k s).1 _ _ h1 hnds.2 hfr'
      simp only [exec]
      rw [addedOf_append, removedOf_append, removedOf_addPlugin]
      simp only [List.nil_append, ← List.append_assoc]
      exact h2
    | remove ks =>
      have h1 := registryInv_remove ks w s added removed hinv
      have hnd' : (addKeys rest).Nodup := by simpa [addKeys] using hnd
      have hfr' : ∀ k' ∈ addKeys rest, k' ∉ added := fun k' hk' =>
        hfr k' (by simp [addKeys, hk'])
      have h2 := ih (removePlugins ks w s).1 _ _ h1 hnd' hfr'
      simp only [exec]
      rw [addedOf_append, removedOf_append]
      have hz : addedOf (removePlugins ks w s).2 = [] := by
        simp only [removePlugins]
        exact addedOf_removePluginsGo ks w s.interfaceList
      rw [hz]
      simp only [List.nil_append, ← List.append_assoc]
      exact h2

/-- Unfolding of the removal loop on an entry it removes. -/
theorem removePluginsGo_cons_rem (ks : List String) (w : String → Nat → Bool)
    (e : String × Nat) (rest : List (String × Nat))
    (h1 : e.1 ∈ ks) (h2 : w e.1 e.2 = true) :
    removePluginsGo ks w (e :: rest) =
      ((removePluginsGo ks w rest).1,
        Action.quitThread e.1 e.2 :: Action.waitThread e.1 e.2 true ::
        Action.removeEntry e.1 e.2 :: Action.disconnectSignals e.1 e.2 ::
        Action.deleteLater e.1 e.2 :: (removePluginsGo ks w rest).2) := by
  simp [removePluginsGo, h1, h2]

/-- Unfolding of the removal loop on an entry whose thread refuses to
quit. -/
theorem removePluginsGo_cons_stuck (ks : List String)
    (w : String → Nat → Bool) (e : String × Nat)
    (rest : List (String × Nat))
    (h1 : e.1 ∈ ks) (h2 : w e.1 e.2 = false) :
    removePluginsGo ks w (e :: rest) =
      (e :: (removePluginsGo ks w rest).1,
        Action.quitThread e.1 e.2 :: Action.waitThread e.1 e.2 false ::
        Action.warnWaitFail e.1 e.2 :: (removePluginsGo ks w rest).2) := by
  simp [removePluginsGo, h1, h2]

/-- Unfolding of the removal loop on an entry it is not asked to
remove. -/
theorem removePluginsGo_cons_skip (ks : List String)
    (w : String → Nat → Bool) (e : String × Nat)
    (rest : List (String × Nat)) (h1 : e.1 ∉ ks) :
    removePluginsGo ks w (e :: rest) =
      (e :: (removePluginsGo ks w rest).1, (removePluginsGo ks w rest).2) := by
  simp [removePluginsGo, h1]

/-- When an entry's thread refuses to quit, its warning is logged. -/
theorem warn_mem_of_wait_false (ks : List String) (w : String → Nat → Bool)
    (k : String) (h : Nat) (hk : k ∈ ks) (hw : w k h = false) :
    ∀ l : List (String × Nat), (k, h) ∈ l →
      Action.warnWaitFail k h ∈ (removePluginsGo ks w l).2 := by
  intro l
  induction l with
  | nil => intro hmem; cases hmem
  | cons e rest ih =>
    intro hmem
    rcases List.mem_cons.1 hmem with heq | hmem'
    · subst heq
      rw [removePluginsGo_cons_stuck ks w (k, h) rest hk hw]
      simp
    · by_cases h1 : e.1 ∈ ks
      · by_cases h2 : w e.1 e.2 = true
        · rw [removePluginsGo_cons_rem ks w e rest h1 h2]
          simp only [List.mem_cons]
          exact Or.inr (Or.inr (Or.inr (Or.inr (Or.inr (ih hmem')))))
        · rw [removePluginsGo_cons_stuck ks w e rest h1
            (by simpa using h2)]
          simp only [List.mem_cons]
          exact Or.inr (Or.inr (Or.inr (ih hmem')))
      · rw [removePluginsGo_cons_skip ks w e rest h1]
        exact ih hmem'

/-- When an entry's thread refuses to quit, no teardown step for that
entry ever appears in the removal trace. -/
theorem no_teardown_of_wait_false (ks : List String)
    (w : String → Nat → Bool) (k : String) (h : Nat) (hw : w k h = false) :
    ∀ l : List (String × Nat), ∀ a ∈ (removePluginsGo ks w l).2,
      a ≠ Action.removeEntry k h ∧ a ≠ Action.disconnectSignals k h ∧
      a ≠ Action.deleteLater k h := by
  intro l
  induction l with
  | nil => intro a ha; cases ha
  | cons e rest ih =>
    intro a ha
    by_cases h1 : e.1 ∈ ks
    · by_cases h2 : w e.1 e.2 = true
      · have hne : ¬ (e.1 = k ∧ e.2 = h) := by
          rintro ⟨rfl, rfl⟩
          rw [hw] at h2
          cases h2
        rw [removePluginsGo_cons_rem ks w e rest h1 h2] at ha
        simp only [List.mem_cons] at ha
        rcases ha with rfl | rfl | rfl | rfl | rfl | ha
        · simp
        · simp
        · refine ⟨fun hc => ?_, by simp, by simp⟩
          injection hc with hc1 hc2
          exact hne ⟨hc1, hc2⟩
        · refine ⟨by simp, fun hc => ?_, by simp⟩
          injection hc with hc1 hc2
          exact hne ⟨hc1, hc2⟩
        · refine ⟨by simp, by simp, fun hc => ?_⟩
          injection hc with hc1 hc2
          exact hne ⟨hc1, hc2⟩
        · exact ih a ha
      · rw [removePluginsGo_cons_stuck ks w e rest h1 (by simpa using h2)] at ha
        simp only [List.mem_cons] at ha
        rcases ha with rfl | rfl | rfl | ha
        · simp
        · simp
        · simp
        · exact ih a ha
    · rw [removePluginsGo_cons_skip ks w e rest h1] at ha
      exact ih a ha

/-- The actions of a trace that are about the entry (k, h). -/
def actionsFor (k : String) (h : Nat) : List Action → List Action
  | [] => []
  | a :: tr =>
    if entryOf a = some (k, h) then a :: actionsFor k h tr
    else actionsFor k h tr

/-- The removal trace holds no action about an entry absent from the
registry. -/
theorem actionsFor_absent (ks : List String) (w : String → Nat → Bool)
    (k : String) (h : Nat) :
    ∀ l : List (String × Nat), (k, h) ∉ l →
      actionsFor k h (removePluginsGo ks w l).2 = [] := by
  intro l
  induction l with
  | nil => intro _; rfl
  | cons e rest ih =>
    intro hnot
    have hpair : ¬ ((e.1, e.2) = (k, h)) := by
      intro hc
      exact hnot (by rw [List.mem_cons]; left; rw [← hc])
    have hrest : (k, h) ∉ rest := fun hc => hnot (List.mem_cons.2 (Or.inr hc))
    by_cases h1 : e.1 ∈ ks
    · by_cases h2 : w e.1 e.2 = true
      · rw [removePluginsGo_cons_rem ks w e rest h1 h2]
        simp [actionsFor, entryOf, hpair, ih hrest]
      · rw [removePluginsGo_cons_stuck ks w e rest h1 (by simpa using h2)]
        simp [actionsFor, entryOf, hpair, ih hrest]
    · rw [removePluginsGo_cons_skip ks w e rest h1]
      exact ih hrest

/-- On a duplicate-free registry, the steps the removal loop performs
for a successfully removed entry are exactly quit, wait, removal from
the registry, disconnection, deferred deletion — in that order. -/
theorem entry_trace_order (ks : List String) (w : String → Nat → Bool)
    (k : String) (h : Nat) (hk : k ∈ ks) (hw : w k h = true) :
    ∀ l : List (String × Nat), l.Nodup → (k, h) ∈ l →
      actionsFor k h (removePluginsGo ks w l).2 =
        [Action.quitThread k h, Action.waitThread k h true,
         Action.removeEntry k h, Action.disconnectSignals k h,
         Action.deleteLater k h] := by
  intro l
  induction l with
  | nil => intro _ hmem; cases hmem
  | cons e rest ih =>
    intro hnd hmem
    have hndr : rest.Nodup := (List.nodup_cons.1 hnd).2
    have hnotr : e ∉ rest := (List.nodup_cons.1 hnd).1
    rcases List.mem_cons.1 hmem with heq | hmem'
    · subst heq
      rw [removePluginsGo_cons_rem ks w (k, h) rest hk hw]
      have habs := actionsFor_absent ks w k h rest hnotr
      simp [actionsFor, entryOf, habs]
    · have hpair : ¬ ((e.1, e.2) = (k, h)) := by
        intro hc
        apply hnotr
        have heq : e = (k, h) := by rw [← hc]
        rw [heq]
        exact hmem'
      by_cases h1 : e.1 ∈ ks
      · by_cases h2 : w e.1 e.2 = true
        · rw [removePluginsGo_cons_rem ks w e rest h1 h2]
          simp [actionsFor, entryOf, hpair, ih hndr hmem']
        · rw [removePluginsGo_cons_stuck ks w e rest h1 (by simpa using h2)]
          simp [actionsFor, entryOf, hpair, ih hndr hmem']
      · rw [removePluginsGo_cons_skip ks w e rest h1]
        exact ih hndr hmem'

/-! ## Handle freshness -/

/-- Every live handle was allocated below the counter. This holds for
every reachable state, since handles come from the counter. -/
def HandlesLt (s : BackendState) : Prop :=
  ∀ e ∈ s.interfaceList, e.2 < s.nextHandle

theorem removePlugins_nextHandle (ks : List String)
    (w : String → Nat → Bool) (s : BackendState) :
    (removePlugins ks w s).1.nextHandle = s.nextHandle := rfl

theorem removePlugins_entry_sub (ks : List String)
    (w : String → Nat → Bool) (s : BackendState) :
    ∀ e ∈ (removePlugins ks w s).1.interfaceList, e ∈ s.interfaceList := by
  intro e he
  simp only [removePlugins, removePluginsGo_fst] at he
  exact List.mem_of_mem_filter he

theorem addPlugin_nextHandle_le (create : String → Bool) (k : String)
    (s : BackendState) :
    s.nextHandle ≤ (addPlugin create k s).1.nextHandle := by
  by_cases hc : create k = true
  · simp [addPlugin, hc]
  · simp [addPlugin, hc]

theorem addPlugin_entry_cases (create : String → Bool) (k : String)
    (s : BackendState) :
    ∀ e ∈ (addPlugin create k s).1.interfaceList,
      e ∈ s.interfaceList ∨ s.nextHandle ≤ e.2 := by
  intro e he
  by_cases hc : create k = true
  · simp only [addPlugin, hc, if_pos] at he
    rcases List.mem_append.1 he with h | h
    · exact Or.inl h
    · rw [List.mem_singleton] at h
      subst h
      exact Or.inr (le_refl _)
  · simp only [addPlugin, hc, if_neg] at he
    exact Or.inl he

theorem addPlugins_nextHandle_le (create : String → Bool) :
    ∀ (ks : List String) (s : BackendState),
      s.nextHandle ≤ (addPlugins create ks s).1.nextHandle := by
  intro ks
  induction ks with
  | nil => intro s; exact le_refl _
  | cons k rest ih =>
    intro s
    calc s.nextHandle ≤ (addPlugin create k s).1.nextHandle :=
          addPlugin_nextHandle_le create k s
      _ ≤ (addPlugins create rest (addPlugin create k s).1).1.nextHandle :=
          ih (addPlugin create k s).1

theorem addPlugins_cons (create : String → Bool) (k : String)
    (rest : List String) (s : BackendState) :
    (addPlugins create (k :: rest) s).1 =
      (addPlugins create rest (addPlugin create k s).1).1 := rfl

/-- Entries after a batch of adds: either a pre-existing entry, or a
fresh one with a handle at or above the old counter. -/
theorem addPlugins_entry_cases (create : String → Bool) :
    ∀ (ks : List String) (s : BackendState),
      ∀ e ∈ (addPlugins create ks s).1.interfaceList,
        e ∈ s.interfaceList ∨ s.nextHandle ≤ e.2 := by
  intro ks
  induction ks with
  | nil => intro s e he; exact Or.inl he
  | cons k rest ih =>
    intro s e he
    rw [addPlugins_cons] at he
    rcases ih (addPlugin create k s).1 e he with h | h
    · exact addPlugin_entry_cases create k s e h
    · exact Or.inr (le_trans (addPlugin_nextHandle_le create k s) h)

/-- Keys present after a batch of adds: the old keys plus every added
key whose construction succeeded. -/
theorem addPlugins_mem_keys (create : String → Bool) :
    ∀ (ks : List String) (s : BackendState) (k' : String),
      k' ∈ keysOf (addPlugins create ks s).1.interfaceList ↔
        (k' ∈ keysOf s.interfaceList ∨ (k' ∈ ks ∧ create k' = true)) := by
  intro ks
  induction ks with
  | nil => intro s k'; simp [addPlugins]
  | cons k rest ih =>
    intro s k'
    rw [addPlugins_cons, ih (addPlugin create k s).1 k']
    have hkeys : keysOf (addPlugin create k s).1.interfaceList =
        if create k then keysOf s.interfaceList ++ [k]
        else keysOf s.interfaceList := by
      by_cases hc : create k = true
      · simp [addPlugin, hc, keysOf]
      · simp [addPlugin, hc]
    rw [hkeys]
    by_cases hc : create k = true
    · rw [if_pos hc]
      simp only [List.mem_append, List.mem_cons, List.not_mem_nil, or_false]
      constructor
      · rintro ((h | rfl) | ⟨h1, h2⟩)
        · exact Or.inl h
        · exact Or.inr ⟨Or.inl rfl, hc⟩
        · exact Or.inr ⟨Or.inr h1, h2⟩
      · rintro (h | ⟨(rfl | h1), h2⟩)
        · exact Or.inl (Or.inl h)
        · exact Or.inl (Or.inr rfl)
        · exact Or.inr ⟨h1, h2⟩
    · rw [if_neg hc]
      simp only [List.mem_cons]
      constructor
      · rintro (h | ⟨h1, h2⟩)
        · exact Or.inl h
        · exact Or.inr ⟨Or.inr h1, h2⟩
      · rintro (h | ⟨(rfl | h1), h2⟩)
        · exact Or.inl h
        · exact absurd h2 hc
        · exact Or.inr ⟨h1, h2⟩

/-- When every wait succeeds, the removal loop removes every targeted
key. -/
theorem removePlugins_removes_all (ks : List String)
    (w : String → Nat → Bool) (s : BackendState)
    (hw : ∀ k h, w k h = true) :
    ∀ k ∈ ks, k ∉ keysOf (removePlugins ks w s).1.interfaceList := by
  intro k hk hmem
  rcases mem_keysOf.1 hmem with ⟨h, hh⟩
  simp only [removePlugins, removePluginsGo_fst] at hh
  have hfl := (List.mem_filter.1 hh).2
  have hcontains : ks.contains k = true := List.elem_iff.2 hk
  simp [hcontains, hw] at hfl
  exact hfl hk

/-- If no key of a batch is registered, the removal loop touches
nothing and performs no step. -/
theorem removePluginsGo_no_target (ks : List String)
    (w : String → Nat → Bool) :
    ∀ l : List (String × Nat), (∀ e ∈ l, e.1 ∉ ks) →
      removePluginsGo ks w l = (l, []) := by
  intro l
  induction l with
  | nil => intro _; rfl
  | cons e rest ih =>
    intro hno
    rw [removePluginsGo_cons_skip ks w e rest (hno e (List.mem_cons_self e rest))]
    rw [ih (fun e' he' => hno e' (List.mem_cons.2 (Or.inr he')))]

/-! ## Concrete oracles for the witnesses -/

/-- A wait oracle for which every `t->wait()` succeeds. -/
def wTrue : String → Nat → Bool := fun _ _ => true

/-- A wait oracle for which every `t->wait()` fails. -/
def wFalse : String → Nat → Bool := fun _ _ => false

/-- A factory for which `DASFactory::create` always returns a handle. -/
def cTrue : String → Bool := fun _ => true

/-! ## The claims -/

/-- C2: for every entry whose executor fails to terminate within the
wait policy during `removePlugins`, the entry is left registered (its
list entry is not removed, its event callbacks are not disconnected,
its handle is not released via `deleteLater`), and the failure is
logged; the entry is never forcibly removed. -/
theorem C2_wait_failure_leaves_entry (ks : List String)
    (w : String → Nat → Bool) (s : BackendState) (k : String) (h : Nat)
    (hmem : (k, h) ∈ s.interfaceList) (hk : k ∈ ks) (hw : w k h = false) :
    (k, h) ∈ (removePlugins ks w s).1.interfaceList ∧
    Action.warnWaitFail k h ∈ (removePlugins ks w s).2 ∧
    Action.removeEntry k h ∉ (removePlugins ks w s).2 ∧
    Action.disconnectSignals k h ∉ (removePlugins ks w s).2 ∧
    Action.deleteLater k h ∉ (removePlugins ks w s).2 := by
  refine ⟨?_, ?_, ?_, ?_, ?_⟩
  · show (k, h) ∈ (removePluginsGo ks w s.interfaceList).1
    rw [removePluginsGo_fst]
    exact List.mem_filter.2 ⟨hmem, by simp [hw]⟩
  · exact warn_mem_of_wait_false ks w k h hk hw s.interfaceList hmem
  · intro habs
    exact (no_teardown_of_wait_false ks w k h hw s.interfaceList _ habs).1 rfl
  · intro habs
    exact (no_teardown_of_wait_false ks w k h hw s.interfaceList _ habs).2.1 rfl
  · intro habs
    exact (no_teardown_of_wait_false ks w k h hw s.interfaceList _ habs).2.2 rfl

/-- C2 witness: a one-entry registry whose thread refuses to quit. -/
theorem C2_witness :
    ("k", 0) ∈ (⟨[("k", 0)], 1⟩ : BackendState).interfaceList ∧
    "k" ∈ ["k"] ∧ wFalse "k" 0 = false ∧
    (("k", 0) ∈ (removePlugins ["k"] wFalse ⟨[("k", 0)], 1⟩).1.interfaceList ∧
     Action.warnWaitFail "k" 0 ∈ (removePlugins ["k"] wFalse ⟨[("k", 0)], 1⟩).2 ∧
     Action.removeEntry "k" 0 ∉ (removePlugins ["k"] wFalse ⟨[("k", 0)], 1⟩).2 ∧
     Action.disconnectSignals "k" 0 ∉ (removePlugins ["k"] wFalse ⟨[("k", 0)], 1⟩).2 ∧
     Action.deleteLater "k" 0 ∉ (removePlugins ["k"] wFalse ⟨[("k", 0)], 1⟩).2) :=
  ⟨by decide, by decide, rfl,
   C2_wait_failure_leaves_entry ["k"] wFalse ⟨[("k", 0)], 1⟩ "k" 0
     (by decide) (by decide) rfl⟩

/-- C3 as stated is false at a one-entry registry: the code removes
the entry from the registry (`removeAt`) before disconnecting its
callbacks and scheduling release, while the claim requires disconnect
and release scheduling to happen first. -/
theorem C3_counterexample :
    (removePlugins ["k"] wTrue ⟨[("k", 0)], 1⟩).2 =
      [Action.quitThread "k" 0, Action.waitThread "k" 0 true,
       Action.removeEntry "k" 0, Action.disconnectSignals "k" 0,
       Action.deleteLater "k" 0] ∧
    ¬ ((removePlugins ["k"] wTrue ⟨[("k", 0)], 1⟩).2.indexOf
          (Action.disconnectSignals "k" 0) <
        (removePlugins ["k"] wTrue ⟨[("k", 0)], 1⟩).2.indexOf
          (Action.removeEntry "k" 0)) := by
  exact ⟨by decide, by decide⟩

/-- C3 amended: for every live entry whose key is in the removed set
and whose wait succeeds, `removePlugins` performs its steps in this
order: (1) signal the entry's executor to quit, (2) block on wait until
it terminates, (3) remove the entry from the registry, and only then
(4) disconnect the entry's event callbacks and schedule release of its
handle. -/
theorem C3_remove_step_order (ks : List String)
    (w : String → Nat → Bool) (s : BackendState) (k : String) (h : Nat)
    (hnd : s.interfaceList.Nodup) (hmem : (k, h) ∈ s.interfaceList)
    (hk : k ∈ ks) (hw : w k h = true) :
    actionsFor k h (removePlugins ks w s).2 =
      [Action.quitThread k h, Action.waitThread k h true,
       Action.removeEntry k h, Action.disconnectSignals k h,
       Action.deleteLater k h] :=
  entry_trace_order ks w k h hk hw s.interfaceList hnd hmem

/-- C3 witness: the amended order at a concrete two-entry registry. -/
theorem C3_witness :
    ([("a", 0), ("k", 1)] : List (String × Nat)).Nodup ∧
    ("k", 1) ∈ ([("a", 0), ("k", 1)] : List (String × Nat)) ∧
    "k" ∈ ["k"] ∧ wTrue "k" 1 = true ∧
    actionsFor "k" 1 (removePlugins ["k"] wTrue ⟨[("a", 0), ("k", 1)], 2⟩).2 =
      [Action.quitThread "k" 1, Action.waitThread "k" 1 true,
       Action.removeEntry "k" 1, Action.disconnectSignals "k" 1,
       Action.deleteLater "k" 1] :=
  ⟨by decide, by decide, by decide, rfl,
   C3_remove_step_order ["k"] wTrue ⟨[("a", 0), ("k", 1)], 2⟩ "k" 1
     (by decide) (by decide) (by decide) rfl⟩

/-- C4: for every sequence of add/remove operations whose added keys
are pairwise distinct, the live key set after the sequence is the set
of keys actually added minus the set of keys successfully removed; and
removing keys none of which is registered leaves the registry (and the
trace) unchanged. -/
theorem C4_live_key_set (create : String → Bool) (w : String → Nat → Bool)
    (ops : List Op) (hnd : (addKeys ops).Nodup) :
    (∀ k, k ∈ keysOf (exec create w ops initBackend).1.interfaceList ↔
      (k ∈ addedOf (exec create w ops initBackend).2 ∧
       k ∉ removedOf (exec create w ops initBackend).2)) ∧
    (∀ (s : BackendState) (ks : List String),
      (∀ k ∈ ks, k ∉ keysOf s.interfaceList) →
      removePlugins ks w s = (s, [])) := by
  constructor
  · have hres := exec_registryInv create w ops initBackend [] []
      registryInv_init hnd (by intro k _ hmem; cases hmem)
    intro k
    have hiff := hres.2.1 k
    simpa using hiff
  · intro s ks hks
    have hno : ∀ e ∈ s.interfaceList, e.1 ∉ ks := by
      intro e he hek
      exact hks e.1 hek (mem_keysOf.2 ⟨e.2, by simpa using he⟩)
    have hgo := removePluginsGo_no_target ks w s.interfaceList hno
    simp only [removePlugins, hgo]

/-- C4 witness: add two keys, remove one. -/
theorem C4_witness :
    (addKeys [Op.add "a", Op.add "b", Op.remove ["a"]]).Nodup ∧
    ("b" ∈ keysOf (exec cTrue wTrue [Op.add "a", Op.add "b", Op.remove ["a"]]
        initBackend).1.interfaceList ↔
      ("b" ∈ addedOf (exec cTrue wTrue [Op.add "a", Op.add "b", Op.remove ["a"]]
          initBackend).2 ∧
       "b" ∉ removedOf (exec cTrue wTrue [Op.add "a", Op.add "b", Op.remove ["a"]]
          initBackend).2)) :=
  ⟨by decide,
   (C4_live_key_set cTrue wTrue [Op.add "a", Op.add "b", Op.remove ["a"]]
     (by decide)).1 "b"⟩

/-- C5 as stated is false: `addPlugin` never checks whether the key is
already registered, so adding the same key twice yields two live
entries with that key. -/
theorem C5_counterexample :
    (exec cTrue wTrue [Op.add "k", Op.add "k"] initBackend).1.interfaceList =
      [("k", 0), ("k", 1)] ∧
    ¬ (keysOf (exec cTrue wTrue [Op.add "k", Op.add "k"]
        initBackend).1.interfaceList).Nodup := by
  exact ⟨by decide, by decide⟩

/-- C5 amended: in every state reachable by a sequence of add/remove
operations whose added keys are pairwise distinct — so add is never
invoked for a key that is already registered — the registry contains
at most one live entry per key; invoking add for an already-registered
key instead creates a duplicate entry. -/
theorem C5_at_most_one_entry_per_key (create : String → Bool)
    (w : String → Nat → Bool) (ops : List Op)
    (hnd : (addKeys ops).Nodup) :
    (keysOf (exec create w ops initBackend).1.interfaceList).Nodup :=
  (exec_registryInv create w ops initBackend [] [] registryInv_init hnd
    (by intro k _ hmem; cases hmem)).1

/-- C5 witness: a concrete distinct-key sequence. -/
theorem C5_witness :
    (addKeys [Op.add "a", Op.add "b", Op.remove ["a"], Op.add "c"]).Nodup ∧
    (keysOf (exec cTrue wTrue [Op.add "a", Op.add "b", Op.remove ["a"], Op.add "c"]
        initBackend).1.interfaceList).Nodup :=
  ⟨by decide,
   C5_at_most_one_entry_per_key cTrue wTrue
     [Op.add "a", Op.add "b", Op.remove ["a"], Op.add "c"] (by decide)⟩

/-- C6: the `pluginModified` handler first removes every notified key
(when every wait succeeds), then reloads; on reload failure the keys
stay unregistered and no entry is constructed; on reload success every
key exposed by the reloaded artifact whose construction succeeds is
registered again, and every entry for a removed-and-reexposed key
carries a freshly constructed handle, never the pre-reload one. -/
theorem C6_modified_reload (create : String → Bool)
    (w : String → Nat → Bool) (keys newKeys : List String)
    (s : BackendState) (hb : HandlesLt s) (hw : ∀ k h, w k h = true)
    (hc : ∀ k ∈ newKeys, create k = true) :
    ((∀ k ∈ keys, k ∉ keysOf (pluginModified create w keys none s).1.interfaceList) ∧
     (pluginModified create w keys none s).1 = (removePlugins keys w s).1 ∧
     addedOf (pluginModified create w keys none s).2 = []) ∧
    (∀ k ∈ keys, k ∉ keysOf (removePlugins keys w s).1.interfaceList) ∧
    (∀ k ∈ newKeys,
      k ∈ keysOf (pluginModified create w keys (some newKeys) s).1.interfaceList) ∧
    (∀ k hOld, (k, hOld) ∈ s.interfaceList → k ∈ keys →
      ∀ hNew, (k, hNew) ∈ (pluginModified create w keys (some newKeys) s).1.interfaceList →
        hNew ≠ hOld) := by
  have hrem := removePlugins_removes_all keys w s hw
  refine ⟨⟨hrem, rfl, ?_⟩, hrem, ?_, ?_⟩
  · show addedOf (removePlugins keys w s).2 = []
    exact addedOf_removePluginsGo keys w s.interfaceList
  · intro k hk
    have hres : (pluginModified create w keys (some newKeys) s).1 =
        (addPlugins create newKeys (removePlugins keys w s).1).1 := rfl
    rw [hres, addPlugins_mem_keys]
    exact Or.inr ⟨hk, hc k hk⟩
  · intro k hOld hOldMem hkKeys hNew hNewMem
    have hres : (pluginModified create w keys (some newKeys) s).1 =
        (addPlugins create newKeys (removePlugins keys w s).1).1 := rfl
    rw [hres] at hNewMem
    rcases addPlugins_entry_cases create newKeys (removePlugins keys w s).1
        (k, hNew) hNewMem with hold | hfresh
    · exact absurd (mem_keysOf.2 ⟨hNew, hold⟩) (hrem k hkKeys)
    · have hlt : hOld < s.nextHandle := hb (k, hOld) hOldMem
      have hge : s.nextHandle ≤ hNew := by
        rw [removePlugins_nextHandle] at hfresh
        exact hfresh
      omega

/-- C6 witness: one registered key, modified and successfully
reloaded; the key ends up registered again. -/
theorem C6_witness :
    "k" ∈ keysOf (pluginModified cTrue wTrue ["k"] (some ["k"])
      ⟨[("k", 0)], 1⟩).1.interfaceList :=
  (C6_modified_reload cTrue wTrue ["k"] ["k"] ⟨[("k", 0)], 1⟩
    (by intro e he; simp at he; rw [he]; decide)
    (fun _ _ => rfl) (by decide)).2.2.1 "k" (by decide)

/-- C7: the mount relay writes exactly when the parsed version passes
the `>= 5.10` gate: release "5.9.0" yields success with no write,
"5.10.3" with a readable table of N bytes and a fully writable relay
channel writes exactly those N bytes and succeeds, and "abc" yields
`UnrecognizedVersion` with no read and no write. -/
theorem C7_mount_relay_scenarios :
    (∀ (mi : Option (List Nat)) (dok : Bool) (dwr : List Nat → Int),
      writeMountInfo ⟨some "5.9.0".toList, mi, dok, dwr⟩ =
        ⟨WriteMountInfoError.Success, false, none⟩) ∧
    (∀ data : List Nat,
      writeMountInfo ⟨some "5.10.3".toList, some data, true, fullWrite⟩ =
        ⟨WriteMountInfoError.Success, true, some data⟩) ∧
    (∀ (mi : Option (List Nat)) (dok : Bool) (dwr : List Nat → Int),
      writeMountInfo ⟨some "abc".toList, mi, dok, dwr⟩ =
        ⟨WriteMountInfoError.UnrecognizedVersion, false, none⟩) ∧
    (∀ (rel v0 v1 v2 : List Char) (rest : List (List Char)) (data : List Nat),
      qsplit '.' rel = v0 :: v1 :: v2 :: rest →
      (((writeMountInfo ⟨some rel, some data, true, fullWrite⟩).wrote).isSome = true ↔
        (qtoInt v0 > 5 ∨ (qtoInt v0 = 5 ∧ qtoInt v1 ≥ 10)))) := by
  refine ⟨fun mi dok dwr => rfl, ?_, fun mi dok dwr => rfl, ?_⟩
  · intro data
    show (if fullWrite data ≠ ((data.length : Nat) : Int) then
        (⟨WriteMountInfoError.WriteDstFileFail, true, some data⟩ : MountResult)
      else ⟨WriteMountInfoError.Success, true, some data⟩) =
      ⟨WriteMountInfoError.Success, true, some data⟩
    rw [if_neg (by simp [fullWrite])]
  · intro rel v0 v1 v2 rest data hsplit
    simp only [writeMountInfo, hsplit, List.length_cons, List.getD_cons_zero,
      List.getD_cons_succ, fullWrite]
    rw [if_neg (by omega)]
    by_cases hg : qtoInt v0 ≥ 6 ∨ (5 = qtoInt v0 ∧ qtoInt v1 ≥ 10)
    · rw [if_pos hg]
      simp only [not_true, ne_eq, not_false_iff, ite_false, ite_true]
      simp
      omega
    · rw [if_neg hg]
      simp
      omega

/-- C7 witness: the version gate, instantiated at "5.10.3". -/
theorem C7_witness :
    qsplit '.' "5.10.3".toList = [['5'], ['1', '0'], ['3']] ∧
    (((writeMountInfo ⟨some "5.10.3".toList, some [7], true,
        fullWrite⟩).wrote).isSome = true ↔
      (qtoInt ['5'] > 5 ∨ (qtoInt ['5'] = 5 ∧ qtoInt ['1', '0'] ≥ 10))) :=
  ⟨by decide,
   (C7_mount_relay_scenarios).2.2.2 "5.10.3".toList ['5'] ['1', '0'] ['3']
     [] [7] (by decide)⟩

/-- C8 as stated is false: its ordered condition list omits the
kernel-version gate. With release "5.9.0" and an unreadable mount
table, the ordered conditions give `OpenSrcFileFail`, but the code
never attempts the read and returns `Success`. -/
theorem C8_counterexample :
    (writeMountInfo ⟨some "5.9.0".toList, none, true, fullWrite⟩).ret =
      WriteMountInfoError.Success ∧
    writeMountInfoC8Claimed ⟨some "5.9.0".toList, none, true, fullWrite⟩ =
      WriteMountInfoError.OpenSrcFileFail ∧
    (writeMountInfo ⟨some "5.9.0".toList, none, true, fullWrite⟩).ret ≠
      writeMountInfoC8Claimed ⟨some "5.9.0".toList, none, true, fullWrite⟩ :=
  ⟨by decide, by decide, by decide⟩

/-- C8 amended: `writeMountInfo` returns exactly one of the six
results, each under its stated condition checked in order, with the
kernel-version gate inserted after the format check: `UnameFail` when
the release is unavailable, `UnrecognizedVersion` when it has fewer
than three dot-separated components, `Success` (no read, no write)
when the parsed version fails the gate, and only above the gate
`OpenSrcFileFail` / `OpenDstFileFail` / `WriteDstFileFail` / `Success`
as claimed. -/
theorem C8_result_taxonomy (env : MountEnv) :
    (writeMountInfo env).ret = writeMountInfoC8Amended env := by
  obtain ⟨u, mi, dok, dwr⟩ := env
  cases u with
  | none => rfl
  | some rel =>
    simp only [writeMountInfo, writeMountInfoC8Amended]
    by_cases h3 : (qsplit '.' rel).length < 3
    · rw [if_pos h3, if_pos h3]
    · rw [if_neg h3, if_neg h3]
      by_cases hg : qtoInt ((qsplit '.' rel).getD 0 []) ≥ 6 ∨
          (5 = qtoInt ((qsplit '.' rel).getD 0 []) ∧
           qtoInt ((qsplit '.' rel).getD 1 []) ≥ 10)
      · rw [if_pos hg]
        have hgc : ¬ ¬ (qtoInt ((qsplit '.' rel).getD 0 []) > 5 ∨
            (qtoInt ((qsplit '.' rel).getD 0 []) = 5 ∧
             qtoInt ((qsplit '.' rel).getD 1 []) ≥ 10)) := by omega
        rw [if_neg hgc]
        cases mi with
        | none => rfl
        | some data =>
          cases dok with
          | false => rfl
          | true =>
            show (if dwr data ≠ ((data.length : Nat) : Int) then
                (⟨WriteMountInfoError.WriteDstFileFail, true, some data⟩ : MountResult)
              else ⟨WriteMountInfoError.Success, true, some data⟩).ret =
              (if dwr data ≠ ((data.length : Nat) : Int) then
                WriteMountInfoError.WriteDstFileFail
              else WriteMountInfoError.Success)
            by_cases hwr : dwr data ≠ ((data.length : Nat) : Int)
            · rw [if_pos hwr, if_pos hwr]
            · rw [if_neg hwr, if_neg hwr]
      · rw [if_neg hg]
        have hgc : ¬ (qtoInt ((qsplit '.' rel).getD 0 []) > 5 ∨
            (qtoInt ((qsplit '.' rel).getD 0 []) = 5 ∧
             qtoInt ((qsplit '.' rel).getD 1 []) ≥ 10)) := by omega
        rw [if_pos hgc]

/-- C9: `init_connection` is idempotent. A call that returned 0 leaves
the connected flag set; on a connected state every call returns 0 at
once with the state — registry, server, relay writes, call counters —
untouched, so `backendRun` and `monitorStart` are not invoked again;
and the flag becomes set only when this call's `backendRun` returned 0
(or it already was set). -/
theorem C9_init_connection_idempotent (brRet : Int) (env : MountEnv)
    (factoryKeys : List String) (create : String → Bool) (s : InitState) :
    ((init_connection brRet env factoryKeys create s).1 = 0 →
      (init_connection brRet env factoryKeys create s).2.hasconnected = true) ∧
    (s.hasconnected = true →
      init_connection brRet env factoryKeys create s = (0, s)) ∧
    ((init_connection brRet env factoryKeys create s).2.hasconnected = true →
      s.hasconnected = true ∨ brRet = 0) := by
  by_cases hc : s.hasconnected = true
  · exact ⟨fun _ => by simp [init_connection, hc],
      fun _ => by simp [init_connection, hc], fun _ => Or.inl hc⟩
  · have hcf : s.hasconnected = false := by simpa using hc
    by_cases hbr : brRet = 0
    · refine ⟨fun _ => ?_, fun hcc => absurd hcc hc, fun _ => Or.inr hbr⟩
      simp [init_connection, hcf, hbr]
    · refine ⟨fun h0 => ?_, fun hcc => absurd hcc hc, fun hcc => ?_⟩
      · exfalso
        simp [init_connection, hcf, hbr] at h0
      · exfalso
        simp [init_connection, hcf, hbr] at hcc

/-- C9 witness: a second call on an already connected state. -/
theorem C9_witness :
    (⟨true, true, true, initBackend, [], 1, 1⟩ : InitState).hasconnected = true ∧
    init_connection 0 ⟨none, none, false, fullWrite⟩ [] cTrue
        ⟨true, true, true, initBackend, [], 1, 1⟩ =
      (0, ⟨true, true, true, initBackend, [], 1, 1⟩) :=
  ⟨rfl,
   (C9_init_connection_idempotent 0 ⟨none, none, false, fullWrite⟩ [] cTrue
     ⟨true, true, true, initBackend, [], 1, 1⟩).2.1 rfl⟩

/-- C10: when `QString::toInt` fails, the component parses as the
failure value 0 instead of the release being rejected; in particular
"a.b.c" is treated as version 0.0, the gate fails, and
`writeMountInfo` returns `Success` without reading the mount table or
writing to the relay channel. -/
theorem C10_toInt_failure_parses_as_zero :
    (∀ s : List Char, isDecimalInt s = false → qtoInt s = 0) ∧
    qtoInt "a".toList = 0 ∧ qtoInt "b".toList = 0 ∧
    (∀ (mi : Option (List Nat)) (dok : Bool) (dwr : List Nat → Int),
      writeMountInfo ⟨some "a.b.c".toList, mi, dok, dwr⟩ =
        ⟨WriteMountInfoError.Success, false, none⟩) := by
  refine ⟨?_, by decide, by decide, fun mi dok dwr => rfl⟩
  intro s hs
  unfold isDecimalInt at hs
  unfold qtoInt
  cases hp : parseQInt s with
  | none => rfl
  | some n =>
    rw [hp] at hs
    simp at hs

/-- C10 witness: the non-numeric component "a". -/
theorem C10_witness :
    isDecimalInt "a".toList = false ∧ qtoInt "a".toList = 0 :=
  ⟨by decide,
   (C10_toInt_failure_parses_as_zero).1 "a".toList (by decide)⟩

end AnythingBackend
